import Mathlib

/-!
# Verification of the layout-report model and renderer of the type-layout crate

Shallow embedding of `src/lib.rs` (the `TypeLayoutInfo` / `Field` data model and
the `impl fmt::Display for TypeLayoutInfo` renderer) and of the field-sorting
step of the derive-generated constructor (`type-layout-derive/src/lib.rs`).

Rust `usize` values are modelled as `Nat`; every subtraction in the renderer is
guarded in the source, and a `checkedSub`-based variant is used to prove that no
underflow occurs.  `str::len` is modelled as `String.length` (all literals
involved are ASCII).
-/

namespace TypeLayout

/-- Embedding of struct `Field` from `src/lib.rs` (lines 92-97): one declared field of a type.
The `ty` member is the declared type name of the field; `size` and `offset`
are in bytes. -/
structure Field where
  name : String
  ty : String
  size : Nat
  offset : Nat
deriving DecidableEq, Repr

/-- Embedding of struct `TypeLayoutInfo` from `src/lib.rs` (lines 83-88): one inspected type.
Note: this struct has exactly the four members below; it carries no
`generics` member. -/
structure TypeLayoutInfo where
  name : String
  size : Nat
  alignment : Nat
  fields : List Field
deriving DecidableEq, Repr

/-- The record that the derive-generated constructor in
`type-layout-derive/src/lib.rs` (lines 61-67) builds: it sets a fifth
member `generics` (one display string per generic parameter) in addition to
the four members of `TypeLayoutInfo`. -/
structure TypeLayoutInfoGen where
  name : String
  size : Nat
  alignment : Nat
  fields : List Field
  generics : List String
deriving DecidableEq, Repr

/-- The literal `"[padding]"` used for synthetic padding rows. -/
def paddingLabel : String := "[padding]"

/-- Embedding of `self.fields.iter().map(|f| f.size).sum()` (`src/lib.rs` line 109). -/
def fieldsSize (info : TypeLayoutInfo) : Nat :=
  (info.fields.map Field.size).sum

/-- Embedding of `padding_header_length` (`src/lib.rs` lines 110-114): the length of
`"[padding]"` when the struct is padded (sum of field sizes below total size),
otherwise `0`. -/
def paddingHeaderLength (info : TypeLayoutInfo) : Nat :=
  if fieldsSize info < info.size then paddingLabel.length else 0

/-- Embedding of `longest_name` (`src/lib.rs` lines 116-122):
`fields.iter().map(|field| field.name.len()).max().unwrap_or(1).max(padding_header_length)`. -/
def longestName (info : TypeLayoutInfo) : Nat :=
  (((info.fields.map (fun (field : Field) => field.name.length)).max?).getD 1).max
    (paddingHeaderLength info)

/-- Embedding of struct `RowWidths` from `src/lib.rs` (lines 194-199). -/
structure RowWidths where
  offset : Nat
  name : Nat
  size : Nat
deriving DecidableEq, Repr

/-- The `widths` value computed in `fmt` (`src/lib.rs` lines 124-128):
offset and size columns use the literal header lengths, the name column uses
`longest_name`. -/
def rowWidths (info : TypeLayoutInfo) : RowWidths :=
  { offset := "Offset".length
    name := longestName info
    size := "Size".length }

/-- Padding behaviour of the Rust format specifier `{:<width$}`: left-justify
`s` with spaces to a minimum width `w` (never truncates). -/
def leftJustify (s : String) (w : Nat) : String :=
  s ++ String.mk (List.replicate (w - s.length) ' ')

/-- Embedding of `write_row` (`src/lib.rs` lines 207-222): one table row
`"| {:<ow$} | {:<nw$} | {:<sw$} |\n"`, with the three cells already rendered
to strings. -/
def writeRow (widths : RowWidths) (o n s : String) : String :=
  "| " ++ leftJustify o widths.offset ++ " | " ++ leftJustify n widths.name ++
    " | " ++ leftJustify s widths.size ++ " |\n"

/-- Tag recording which branch of the renderer walk emitted a data row: the field branch
(`src/lib.rs` lines 165-173) or one of the two padding branches (lines 153-163
and 178-188). -/
inductive RowKind where
  | fieldRow : RowKind
  | paddingRow : RowKind
deriving DecidableEq, Repr

/-- One data row of the table body, tagged with the branch that emitted it. -/
structure DataRow where
  kind : RowKind
  offset : Nat
  name : String
  size : Nat
deriving DecidableEq, Repr

/-- The cursor walk of `fmt` (`src/lib.rs` lines 150-188), returning the data
rows it emits: starting from cursor `offset`, for each field emit a padding row
when `field.offset > offset`, then the field row, then advance the cursor to
`field.offset + field.size`; after the last field emit a tail padding row when
the cursor is below `size`. -/
def walkRows : Nat → List Field → Nat → List DataRow
  | offset, [], size =>
    if offset < size then
      [⟨RowKind.paddingRow, offset, paddingLabel, size - offset⟩]
    else []
  | offset, field :: rest, size =>
    (if field.offset > offset then
      [⟨RowKind.paddingRow, offset, paddingLabel, field.offset - offset⟩]
    else []) ++
    ⟨RowKind.fieldRow, field.offset, field.name, field.size⟩ ::
      walkRows (field.offset + field.size) rest size

/-- The data rows (field rows and padding rows) emitted for a report. -/
def dataRows (info : TypeLayoutInfo) : List DataRow :=
  walkRows 0 info.fields info.size

/-- The first output line (`src/lib.rs` lines 101-105):
`"{} (size {}, alignment {})\n"`. -/
def headerLine (info : TypeLayoutInfo) : String :=
  info.name ++ " (size " ++ toString info.size ++ ", alignment " ++
    toString info.alignment ++ ")\n"

/-- The column-header row (`src/lib.rs` lines 130-138). -/
def headerRow (info : TypeLayoutInfo) : String :=
  writeRow (rowWidths info) "Offset" "Name" "Size"

/-- The separator row (`src/lib.rs` lines 140-148): six dashes, `longest_name`
dashes, four dashes. -/
def separatorRow (info : TypeLayoutInfo) : String :=
  writeRow (rowWidths info) "------" (String.mk (List.replicate (longestName info) '-')) "----"

/-- Rendering of one data row: offset and size go through `Display` for
`usize` (decimal). -/
def renderDataRow (widths : RowWidths) (r : DataRow) : String :=
  writeRow widths (toString r.offset) r.name (toString r.size)

/-- The whole `Display` implementation (`src/lib.rs` lines 99-192): header
line, column-header row, separator row, then the data rows of the walk. -/
def render (info : TypeLayoutInfo) : String :=
  headerLine info ++ headerRow info ++ separatorRow info ++
    String.join ((dataRows info).map (renderDataRow (rowWidths info)))

/-- Embedding of `fields.sort_by_key(|f| f.offset)` from the derive-generated constructor
(`type-layout-derive/src/lib.rs` line 57): stable sort of the extracted fields,
ascending by offset. -/
def sortFields (fields : List Field) : List Field :=
  fields.mergeSort (fun f g => f.offset ≤ g.offset)

/-- The derive-generated constructor (`type-layout-derive/src/lib.rs` lines
45-68), restricted to the members the renderer consumes: it sorts the
extracted fields by offset before building the record. -/
def mkReport (name : String) (size alignment : Nat) (fields : List Field) :
    TypeLayoutInfo :=
  { name := name, size := size, alignment := alignment
    fields := sortFields fields }

/-- Forgetting the `generics` member of the derive-side record yields the
record the renderer works on. -/
def TypeLayoutInfoGen.toInfo (d : TypeLayoutInfoGen) : TypeLayoutInfo :=
  { name := d.name, size := d.size, alignment := d.alignment, fields := d.fields }

/-- Checked subtraction: `a - b` when it does not underflow, `none`
otherwise.  Used to show that the two guarded subtractions of the renderer
never underflow. -/
def checkedSub (a b : Nat) : Option Nat :=
  if b ≤ a then some (a - b) else none

/-- The cursor walk with both subtractions replaced by `checkedSub`: returns
`none` as soon as a subtraction would underflow. -/
def walkRowsChecked : Nat → List Field → Nat → Option (List DataRow)
  | offset, [], size =>
    if offset < size then
      (checkedSub size offset).map
        (fun d => [⟨RowKind.paddingRow, offset, paddingLabel, d⟩])
    else some []
  | offset, field :: rest, size => do
    let pad ←
      if field.offset > offset then
        (checkedSub field.offset offset).map
          (fun d => [⟨RowKind.paddingRow, offset, paddingLabel, d⟩])
      else some []
    let tail ← walkRowsChecked (field.offset + field.size) rest size
    some (pad ++ ⟨RowKind.fieldRow, field.offset, field.name, field.size⟩ :: tail)

/-- The whole rendering with the checked walk. -/
def renderChecked (info : TypeLayoutInfo) : Option String :=
  (walkRowsChecked 0 info.fields info.size).map
    (fun rows =>
      headerLine info ++ headerRow info ++ separatorRow info ++
        String.join (rows.map (renderDataRow (rowWidths info))))

/-- Column widths as the spec claims them (spec-side definition, written from
the claim wording, for comparison with `rowWidths`): each column is as wide as
the maximum of the length of its header and the length of every value printed
in that column, where the Name column additionally counts the literal
`"[padding]"` exactly when the sum of field sizes is below the total size, and
defaults to 1 when there are zero fields. -/
def claimedWidths (info : TypeLayoutInfo) : RowWidths :=
  { offset :=
      ((dataRows info).map (fun r => (toString r.offset).length)).foldr max
        "Offset".length
    name :=
      (((info.fields.map (fun (f : Field) => f.name.length)).foldr max
            (if info.fields.isEmpty then 1 else 0)).max
          (if fieldsSize info < info.size then paddingLabel.length else 0)).max
        "Name".length
    size :=
      ((dataRows info).map (fun r => (toString r.size).length)).foldr max
        "Size".length }

/-- Column widths as the code actually fixes them (spec-side definition,
written from the amended claim wording): the Offset and Size columns are fixed
at the lengths of their headers, 6 and 4, regardless of the printed values; the
Name column is as wide as the longest field name (1 when there are no fields),
raised to 9 exactly when the sum of field sizes is below the total size; the
length of the header word Name is not taken into account. -/
def amendedWidths (info : TypeLayoutInfo) : RowWidths :=
  { offset := 6
    name :=
      (if info.fields.isEmpty then 1
       else (info.fields.map (fun (f : Field) => f.name.length)).foldr max 0).max
        (if fieldsSize info < info.size then 9 else 0)
    size := 4 }

/-- One step of the walk as §4.2 of the spec words it (spec-side definition):
the state is the cursor and the rows appended so far; when the field offset
exceeds the cursor first append one padding row from the cursor to the field
offset, then append the field row and move the cursor past the field. -/
def specStep (state : Nat × List DataRow) (field : Field) : Nat × List DataRow :=
  let out :=
    if field.offset > state.1 then
      state.2 ++ [⟨RowKind.paddingRow, state.1, paddingLabel, field.offset - state.1⟩]
    else state.2
  (field.offset + field.size,
    out ++ [⟨RowKind.fieldRow, field.offset, field.name, field.size⟩])

/-- The walk of the fields as §4.2 of the spec words it (spec-side definition,
for comparison with `walkRows`): fold `specStep` over the fields starting from
cursor 0 and no rows; after the loop, when the cursor is below the total size
append one final padding row up to the total size. -/
def specWalk (fields : List Field) (size : Nat) : List DataRow :=
  let result := fields.foldl specStep (0, [])
  if result.1 < size then
    result.2 ++ [⟨RowKind.paddingRow, result.1, paddingLabel, size - result.1⟩]
  else result.2

/-- The half-open spans `[offset, offset+size)` of two fields do not overlap:
one of them ends at or before the other begins. -/
def spansDisjoint (f g : Field) : Prop :=
  f.offset + f.size ≤ g.offset ∨ g.offset + g.size ≤ f.offset

instance (f g : Field) : Decidable (spansDisjoint f g) := by
  unfold spansDisjoint; infer_instance

/-- Contiguity of a list of data rows: starting from cursor `c`, every row
starts exactly at the current cursor and advances it by its own size, and the
final cursor is `e`.  `spansOk 0 rows size` says the rows tile `[0, size)`
exactly, in order, with no gap and no overlap. -/
def spansOk : Nat → List DataRow → Nat → Prop
  | c, [], e => c = e
  | c, r :: rest, e => r.offset = c ∧ spansOk (c + r.size) rest e

instance spansOkDecidable : (c : Nat) → (rows : List DataRow) → (e : Nat) →
    Decidable (spansOk c rows e)
  | c, [], e => inferInstanceAs (Decidable (c = e))
  | c, r :: rest, e =>
    haveI := spansOkDecidable (c + r.size) rest e
    inferInstanceAs (Decidable (r.offset = c ∧ spansOk (c + r.size) rest e))

/-- The report for the documented example struct Foo of `src/lib.rs` (size 8,
alignment 4, fields a at offset 0 size 1 and b at offset 4 size 4), with
fields in ascending offset order. -/
def fooInfo : TypeLayoutInfo :=
  ⟨"Foo", 8, 4, [⟨"a", "u8", 1, 0⟩, ⟨"b", "u32", 4, 4⟩]⟩

/-- The same report with the two fields swapped in the list. -/
def fooInfoShuffled : TypeLayoutInfo :=
  ⟨"Foo", 8, 4, [⟨"b", "u32", 4, 4⟩, ⟨"a", "u8", 1, 0⟩]⟩

/-- A report with one single-byte field named `a` and total size 1: no padding
anywhere, every printed value shorter than its column header. -/
def tinyInfo : TypeLayoutInfo :=
  ⟨"A", 1, 1, [⟨"a", "u8", 1, 0⟩]⟩

/-- A report with no padding whose only field carries the nine-character name
`abcdefghi`. -/
def longNameInfo : TypeLayoutInfo :=
  ⟨"N", 1, 1, [⟨"abcdefghi", "T", 1, 0⟩]⟩

/-- A report whose fields are sorted by offset, have disjoint spans and stay
within the total size, but where the second field has size zero and sits
inside the span of the first: the walk cursor moves backwards on it. -/
def zeroSizeInfo : TypeLayoutInfo :=
  ⟨"X", 15, 1, [⟨"f", "T", 10, 5⟩, ⟨"g", "T", 0, 5⟩]⟩

/-- A malformed report: its only field extends past the total size. -/
def malformedInfo : TypeLayoutInfo :=
  ⟨"M", 5, 1, [⟨"x", "T", 4, 7⟩]⟩

/-! ## Helper lemmas -/

lemma foldl_max_eq (l : List Nat) (a : Nat) : l.foldl max a = max a (l.foldr max 0) := by
  induction l generalizing a with
  | nil => simp
  | cons b l ih => simp [List.foldl_cons, ih (max a b), max_assoc]

lemma maxD_one_eq (l : List Nat) :
    (l.max?).getD 1 = if l.isEmpty then 1 else l.foldr max 0 := by
  cases l with
  | nil => rfl
  | cons a t =>
    show t.foldl max a = _
    simp [foldl_max_eq]

lemma le_foldr_max_iff (k : Nat) (hk : 0 < k) (l : List Nat) :
    k ≤ l.foldr max 0 ↔ ∃ x ∈ l, k ≤ x := by
  induction l with
  | nil => simp; omega
  | cons a t ih => simp [List.foldr_cons, le_max_iff, ih]

lemma sortFields_eq_of_perm (l₁ l₂ : List Field) (hperm : l₁.Perm l₂)
    (hnodup : (l₁.map Field.offset).Nodup) :
    sortFields l₁ = sortFields l₂ := by
  have htrans : ∀ a b c : Field, (decide (a.offset ≤ b.offset)) = true →
      (decide (b.offset ≤ c.offset)) = true → (decide (a.offset ≤ c.offset)) = true := by
    intro a b c hab hbc
    simp only [decide_eq_true_eq] at *
    omega
  have htotal : ∀ a b : Field,
      (decide (a.offset ≤ b.offset) || decide (b.offset ≤ a.offset)) = true := by
    intro a b
    simp only [Bool.or_eq_true, decide_eq_true_eq]
    omega
  have hp1 : (sortFields l₁).Perm l₁ := List.mergeSort_perm l₁ _
  have hp2 : (sortFields l₂).Perm l₂ := List.mergeSort_perm l₂ _
  have hs1 := List.sorted_mergeSort htrans htotal l₁
  have hs2 := List.sorted_mergeSort htrans htotal l₂
  have hn1 : ((sortFields l₁).map Field.offset).Nodup :=
    ((hp1.map Field.offset).nodup_iff).mpr hnodup
  have hnodup₂ : (l₂.map Field.offset).Nodup :=
    ((hperm.map Field.offset).nodup_iff).mp hnodup
  have hn2 : ((sortFields l₂).map Field.offset).Nodup :=
    ((hp2.map Field.offset).nodup_iff).mpr hnodup₂
  have strict : ∀ (l : List Field),
      List.Pairwise (fun a b : Field => decide (a.offset ≤ b.offset) = true) l →
      (l.map Field.offset).Nodup →
      List.Pairwise (fun f g : Field => f.offset < g.offset) l := by
    intro l hle hnd
    have hne : List.Pairwise (fun f g : Field => f.offset ≠ g.offset) l :=
      List.pairwise_map.mp hnd
    refine (hle.and hne).imp ?_
    intro a b hab
    have h1 : a.offset ≤ b.offset := of_decide_eq_true hab.1
    have h2 : a.offset ≠ b.offset := hab.2
    omega
  have hs1' := strict _ hs1 hn1
  have hs2' := strict _ hs2 hn2
  haveI : IsAntisymm Field (fun f g => f.offset < g.offset) :=
    ⟨fun a b h h2 => absurd (Nat.lt_trans h h2) (Nat.lt_irrefl _)⟩
  exact List.eq_of_perm_of_sorted (hp1.trans (hperm.trans hp2.symm)) hs1' hs2'

lemma spansOk_sum (rows : List DataRow) :
    ∀ (c e : Nat), spansOk c rows e → c + ((rows.map DataRow.size).sum) = e := by
  induction rows with
  | nil =>
    intro c e h
    simpa [spansOk] using h
  | cons r rest ih =>
    intro c e h
    obtain ⟨-, h2⟩ := h
    have := ih (c + r.size) e h2
    simp only [List.map_cons, List.sum_cons]
    omega

lemma chain_of_sorted_disjoint_pos (fields : List Field)
    (hsorted : List.Pairwise (fun f g : Field => f.offset ≤ g.offset) fields)
    (hdisj : List.Pairwise spansDisjoint fields)
    (hpos : ∀ f ∈ fields, 0 < f.size) :
    List.Pairwise (fun f g : Field => f.offset + f.size ≤ g.offset) fields := by
  refine (hsorted.and hdisj).imp_of_mem ?_
  intro a b _ hb hab
  have hle : a.offset ≤ b.offset := hab.1
  have hd : a.offset + a.size ≤ b.offset ∨ b.offset + b.size ≤ a.offset := hab.2
  have hbpos : 0 < b.size := hpos b hb
  omega

lemma walkRows_spansOk (fields : List Field) :
    ∀ (c size : Nat),
      List.Pairwise (fun f g : Field => f.offset + f.size ≤ g.offset) fields →
      (∀ f ∈ fields, c ≤ f.offset) →
      (∀ f ∈ fields, f.offset + f.size ≤ size) →
      c ≤ size →
      spansOk c (walkRows c fields size) size := by
  induction fields with
  | nil =>
    intro c size _ _ _ hcs
    unfold walkRows
    split
    case isTrue h =>
      exact ⟨rfl, by show c + (size - c) = size; omega⟩
    case isFalse h =>
      show c = size
      omega
  | cons f rest ih =>
    intro c size hchain hge hbound hcs
    have hchain' := List.pairwise_cons.mp hchain
    have hcf : c ≤ f.offset := hge f (by simp)
    have hfb : f.offset + f.size ≤ size := hbound f (by simp)
    have hrec : spansOk (f.offset + f.size)
        (walkRows (f.offset + f.size) rest size) size :=
      ih (f.offset + f.size) size hchain'.2 (fun g hg => hchain'.1 g hg)
        (fun g hg => hbound g (by simp [hg])) hfb
    unfold walkRows
    by_cases hpad : f.offset > c
    · rw [if_pos hpad]
      refine ⟨rfl, ?_⟩
      have hc2 : c + (f.offset - c) = f.offset := by omega
      rw [hc2]
      exact ⟨rfl, hrec⟩
    · rw [if_neg hpad, List.nil_append]
      have hfo : f.offset = c := by omega
      refine ⟨hfo, ?_⟩
      show spansOk (c + f.size) (walkRows (f.offset + f.size) rest size) size
      rw [← hfo]
      exact hrec

lemma specWalk_go (fields : List Field) :
    ∀ (c : Nat) (acc : List DataRow) (size : Nat),
      (let result := fields.foldl specStep (c, acc)
       if result.1 < size then
         result.2 ++ [⟨RowKind.paddingRow, result.1, paddingLabel, size - result.1⟩]
       else result.2) = acc ++ walkRows c fields size := by
  induction fields with
  | nil =>
    intro c acc size
    show (if c < size then acc ++ _ else acc) = _
    unfold walkRows
    split <;> simp
  | cons f rest ih =>
    intro c acc size
    show (let result := rest.foldl specStep (specStep (c, acc) f)
          if result.1 < size then
            result.2 ++ [⟨RowKind.paddingRow, result.1, paddingLabel, size - result.1⟩]
          else result.2) = _
    unfold walkRows
    by_cases hpad : f.offset > c
    · have hstep : specStep (c, acc) f =
          (f.offset + f.size,
            (acc ++ [⟨RowKind.paddingRow, c, paddingLabel, f.offset - c⟩]) ++
              [⟨RowKind.fieldRow, f.offset, f.name, f.size⟩]) := by
        unfold specStep
        rw [if_pos hpad]
      rw [hstep, ih]
      rw [if_pos hpad]
      simp

    · have hstep : specStep (c, acc) f =
          (f.offset + f.size,
            acc ++ [⟨RowKind.fieldRow, f.offset, f.name, f.size⟩]) := by
        unfold specStep
        rw [if_neg hpad]
      rw [hstep, ih]
      rw [if_neg hpad]
      simp

lemma walkRowsChecked_eq (fields : List Field) :
    ∀ (c size : Nat), walkRowsChecked c fields size = some (walkRows c fields size) := by
  induction fields with
  | nil =>
    intro c size
    by_cases h : c < size
    · simp [walkRowsChecked, walkRows, checkedSub, h, Nat.le_of_lt h]
    · simp [walkRowsChecked, walkRows, h]
  | cons f rest ih =>
    intro c size
    by_cases h : f.offset > c
    · simp [walkRowsChecked, walkRows, checkedSub, h, Nat.le_of_lt h, ih]
    · simp [walkRowsChecked, walkRows, h, ih]

lemma walkRows_padding_pos (fields : List Field) :
    ∀ (c size : Nat) (r : DataRow), r ∈ walkRows c fields size →
      r.kind = RowKind.paddingRow → r.name = paddingLabel ∧ 0 < r.size := by
  induction fields with
  | nil =>
    intro c size r hr _
    unfold walkRows at hr
    split at hr
    case isTrue h =>
      rw [List.mem_singleton] at hr
      subst hr
      exact ⟨rfl, Nat.sub_pos_of_lt h⟩
    case isFalse h =>
      simp at hr
  | cons f rest ih =>
    intro c size r hr hk
    unfold walkRows at hr
    rcases List.mem_append.mp hr with hr | hr
    · split at hr
      case isTrue h =>
        rw [List.mem_singleton] at hr
        subst hr
        exact ⟨rfl, Nat.sub_pos_of_lt h⟩
      case isFalse h =>
        simp at hr
    · rcases List.mem_cons.mp hr with hr | hr
      · subst hr
        simp at hk
      · exact ih _ _ r hr hk

/-! ## Claims -/

/-- C1, as stated: rendering a report with its fields arbitrarily permuted
yields exactly the same text as rendering it with fields sorted ascending by
offset.  This is false: the renderer walks `self.fields` in the given order
and never sorts; with the two fields of the documented Foo example swapped the
rendered text differs from the sorted rendering. -/
theorem renderer_not_order_independent :
    render fooInfoShuffled ≠ render fooInfo := by decide

/-- C1, amended: the sort is established by the derive-generated constructor
(`fields.sort_by_key`), not by the renderer.  For the constructor-then-render
pipeline the output is invariant under permutation of the extracted field
list, provided the field offsets are pairwise distinct. -/
theorem construct_then_render_order_independent (name : String)
    (size alignment : Nat) (l₁ l₂ : List Field) (hperm : l₁.Perm l₂)
    (hnodup : (l₁.map Field.offset).Nodup) :
    render (mkReport name size alignment l₁) =
      render (mkReport name size alignment l₂) := by
  unfold mkReport
  rw [sortFields_eq_of_perm l₁ l₂ hperm hnodup]

/-- Witness for the amended C1 at the Foo example field lists. -/
theorem construct_then_render_order_independent_witness :
    (fooInfo.fields.Perm fooInfoShuffled.fields ∧
      (fooInfo.fields.map Field.offset).Nodup) ∧
    render (mkReport "Foo" 8 4 fooInfo.fields) =
      render (mkReport "Foo" 8 4 fooInfoShuffled.fields) :=
  ⟨⟨by decide, by decide⟩,
    construct_then_render_order_independent "Foo" 8 4 _ _ (by decide) (by decide)⟩

/-- C2, as stated: every column is rendered at the width given by
`claimedWidths` (maximum of header length and all printed values).  This is
false: for a report with a single one-byte field named `a` and no padding the
renderer uses name-column width 1, while the claim demands 4 (the length of
the header word Name). -/
theorem column_widths_counterexample :
    rowWidths tinyInfo ≠ claimedWidths tinyInfo := by decide

/-- C2, amended: the Offset and Size columns are fixed at their header lengths
6 and 4 regardless of the printed values, and the Name column uses the longest
field name (1 when there are no fields), raised to 9 exactly when the sum of
field sizes is below the total size; the header word Name never contributes. -/
theorem column_widths_eq_amended (info : TypeLayoutInfo) :
    rowWidths info = amendedWidths info := by
  have hie : (info.fields.map (fun (field : Field) => field.name.length)).isEmpty =
      info.fields.isEmpty := by
    cases info.fields <;> rfl
  have ho : "Offset".length = 6 := rfl
  have hs : "Size".length = 4 := rfl
  have hp : paddingLabel.length = 9 := rfl
  unfold rowWidths amendedWidths longestName paddingHeaderLength
  rw [maxD_one_eq, hie, ho, hs, hp]

/-- C3, as stated: the Name column is at least 9 characters wide if and only
if the sum of field sizes is below the total size.  The only-if direction is
false: a report with a nine-character field name and no padding still gets a
nine-wide name column. -/
theorem padding_gating_counterexample :
    9 ≤ (rowWidths longNameInfo).name ∧
      ¬ fieldsSize longNameInfo < longNameInfo.size := by decide

/-- C3, amended: the Name column is at least 9 characters wide if and only if
the sum of field sizes is below the total size or some field name is itself at
least 9 characters long. -/
theorem padding_gating_iff (info : TypeLayoutInfo) :
    9 ≤ (rowWidths info).name ↔
      fieldsSize info < info.size ∨ ∃ f ∈ info.fields, 9 ≤ f.name.length := by
  have hA : 9 ≤ ((info.fields.map (fun (field : Field) => field.name.length)).max?).getD 1 ↔
      ∃ f ∈ info.fields, 9 ≤ f.name.length := by
    rw [maxD_one_eq]
    cases hfe : info.fields with
    | nil => simp
    | cons f t =>
      rw [if_neg (by simp)]
      rw [le_foldr_max_iff 9 (by omega)]
      constructor
      · rintro ⟨x, hx, hxge⟩
        rcases List.mem_map.mp hx with ⟨g, hg, rfl⟩
        exact ⟨g, hg, hxge⟩
      · rintro ⟨g, hg, hge⟩
        exact ⟨g.name.length, List.mem_map.mpr ⟨g, hg, rfl⟩, hge⟩
  have hB : 9 ≤ paddingHeaderLength info ↔ fieldsSize info < info.size := by
    unfold paddingHeaderLength
    by_cases h : fieldsSize info < info.size
    · rw [if_pos h]
      exact ⟨fun _ => h, fun _ => by decide⟩
    · rw [if_neg h]
      omega
  have hmain : 9 ≤ (rowWidths info).name ↔
      9 ≤ ((info.fields.map (fun (field : Field) => field.name.length)).max?).getD 1 ∨
        9 ≤ paddingHeaderLength info := by
    unfold rowWidths longestName
    exact le_max_iff
  rw [hmain, hA, hB, or_comm]

/-- C4, as stated: sorted-by-offset fields with pairwise disjoint spans that
stay within the total size yield contiguous data rows whose sizes sum to the
total size.  This is false for zero-size fields: in `zeroSizeInfo` all three
hypotheses hold, yet the cursor moves backwards on the zero-size field and the
row sizes sum to 25, not 15. -/
theorem coverage_counterexample :
    (List.Pairwise (fun f g : Field => f.offset ≤ g.offset) zeroSizeInfo.fields ∧
      List.Pairwise spansDisjoint zeroSizeInfo.fields ∧
      ∀ f ∈ zeroSizeInfo.fields, f.offset + f.size ≤ zeroSizeInfo.size) ∧
    ((dataRows zeroSizeInfo).map DataRow.size).sum ≠ zeroSizeInfo.size := by
  decide

/-- C4, amended: additionally assuming every field has strictly positive size,
the rendered data rows (field rows plus padding rows) are contiguous and
non-overlapping, cover `[0, size)` exactly, and their sizes sum to the total
size. -/
theorem rendered_rows_cover (info : TypeLayoutInfo)
    (hsorted : List.Pairwise (fun f g : Field => f.offset ≤ g.offset) info.fields)
    (hdisj : List.Pairwise spansDisjoint info.fields)
    (hbounds : ∀ f ∈ info.fields, f.offset + f.size ≤ info.size)
    (hpos : ∀ f ∈ info.fields, 0 < f.size) :
    spansOk 0 (dataRows info) info.size ∧
      ((dataRows info).map DataRow.size).sum = info.size := by
  have hchain := chain_of_sorted_disjoint_pos info.fields hsorted hdisj hpos
  have h1 : spansOk 0 (dataRows info) info.size :=
    walkRows_spansOk info.fields 0 info.size hchain (fun f _ => Nat.zero_le _)
      hbounds (Nat.zero_le _)
  refine ⟨h1, ?_⟩
  have := spansOk_sum (dataRows info) 0 info.size h1
  omega

/-- Witness for the amended C4 at the documented Foo example. -/
theorem rendered_rows_cover_witness :
    (List.Pairwise (fun f g : Field => f.offset ≤ g.offset) fooInfo.fields ∧
      List.Pairwise spansDisjoint fooInfo.fields ∧
      (∀ f ∈ fooInfo.fields, f.offset + f.size ≤ fooInfo.size) ∧
      ∀ f ∈ fooInfo.fields, 0 < f.size) ∧
    (spansOk 0 (dataRows fooInfo) fooInfo.size ∧
      ((dataRows fooInfo).map DataRow.size).sum = fooInfo.size) :=
  ⟨⟨by decide, by decide, by decide, by decide⟩,
    rendered_rows_cover fooInfo (by decide) (by decide) (by decide) (by decide)⟩

/-- C5: the renderer walks the fields with a cursor exactly as §4.2 describes
(`walkRows` coincides with the spec-worded `specWalk` on every report), and on
the concrete scenario A report (size 8, fields a at 0 size 1 and b at 4 size
4) the data rows are `(0, a, 1)`, `(1, [padding], 3)`, `(4, b, 4)` with no
tail padding row. -/
theorem walk_matches_spec_and_scenario_a :
    (∀ info : TypeLayoutInfo, dataRows info = specWalk info.fields info.size) ∧
    dataRows fooInfo =
      [⟨RowKind.fieldRow, 0, "a", 1⟩, ⟨RowKind.paddingRow, 1, "[padding]", 3⟩,
        ⟨RowKind.fieldRow, 4, "b", 4⟩] := by
  constructor
  · intro info
    have h := specWalk_go info.fields 0 [] info.size
    unfold dataRows specWalk
    simpa using h.symm
  · decide

/-- C6: a report with no fields renders as the header line, the column-header
row and the separator row; when the size is nonzero exactly one padding row
spanning the whole size follows, and when the size is zero no data row at all
follows. -/
theorem empty_fields_render (n : String) (s a : Nat) :
    dataRows ⟨n, s, a, []⟩ =
      (if s = 0 then [] else [⟨RowKind.paddingRow, 0, paddingLabel, s⟩]) ∧
    render ⟨n, s, a, []⟩ =
      headerLine ⟨n, s, a, []⟩ ++ headerRow ⟨n, s, a, []⟩ ++
        separatorRow ⟨n, s, a, []⟩ ++
        (if s = 0 then ""
         else renderDataRow (rowWidths ⟨n, s, a, []⟩)
           ⟨RowKind.paddingRow, 0, paddingLabel, s⟩) := by
  have hrows : dataRows ⟨n, s, a, []⟩ =
      (if s = 0 then [] else [⟨RowKind.paddingRow, 0, paddingLabel, s⟩]) := by
    unfold dataRows walkRows
    rcases Nat.eq_zero_or_pos s with h | h
    · subst h
      simp
    · rw [if_pos h, if_neg (by omega)]
      simp
  refine ⟨hrows, ?_⟩
  unfold render
  rw [hrows]
  rcases Nat.eq_zero_or_pos s with h | h
  · subst h
    simp [String.join]
  · rw [if_neg (by omega), if_neg (by omega)]
    simp [String.join]

/-- C7: rendering is total and performs no underflowing subtraction on any
report, well-formed or not: the renderer with every subtraction replaced by
checked subtraction succeeds on every input and returns the same text. -/
theorem render_total_no_underflow (info : TypeLayoutInfo) :
    renderChecked info = some (render info) := by
  unfold renderChecked render dataRows
  rw [walkRowsChecked_eq]
  rfl

/-- C8: rendering is deterministic; two renderer runs on equal reports return
byte-identical text. -/
theorem render_deterministic (info₁ info₂ : TypeLayoutInfo) (h : info₁ = info₂) :
    render info₁ = render info₂ :=
  congrArg render h

/-- Witness for C8 at the documented Foo example. -/
theorem render_deterministic_witness :
    fooInfo = fooInfo ∧ render fooInfo = render fooInfo :=
  ⟨rfl, render_deterministic fooInfo fooInfo rfl⟩

/-- C9: the renderer never consumes the `generics` member that the
derive-generated constructor sets; rendering is invariant under any
change of that member.  (The claim itself is a code bug: `TypeLayoutInfo` in
`src/lib.rs` declares no such member at all, while the derive macro and the
try-crate examples require one, so the two source files contradict each
other.) -/
theorem render_ignores_generics (d : TypeLayoutInfoGen) (g : List String) :
    render (TypeLayoutInfoGen.toInfo { d with generics := g }) =
      render (TypeLayoutInfoGen.toInfo d) :=
  rfl

/-- C10: every padding row the renderer emits, on any report including
malformed ones, carries the label `"[padding]"` and a strictly positive size:
the inter-field padding branch fires only when the field offset exceeds the
cursor and the tail padding branch only when the cursor is below the total
size. -/
theorem padding_rows_positive (info : TypeLayoutInfo) (r : DataRow)
    (hr : r ∈ dataRows info) (hk : r.kind = RowKind.paddingRow) :
    r.name = paddingLabel ∧ 0 < r.size :=
  walkRows_padding_pos info.fields 0 info.size r hr hk

/-- Witness for C10 at a malformed report whose only field extends past the
total size. -/
theorem padding_rows_positive_witness :
    ((⟨RowKind.paddingRow, 0, "[padding]", 7⟩ : DataRow) ∈ dataRows malformedInfo ∧
      (⟨RowKind.paddingRow, 0, "[padding]", 7⟩ : DataRow).kind = RowKind.paddingRow) ∧
    ((⟨RowKind.paddingRow, 0, "[padding]", 7⟩ : DataRow).name = paddingLabel ∧
      0 < (⟨RowKind.paddingRow, 0, "[padding]", 7⟩ : DataRow).size) :=
  ⟨⟨by decide, rfl⟩, padding_rows_positive malformedInfo _ (by decide) rfl⟩

end TypeLayout
